import Mathlib

/-
Verification development for the SSA-based EVM stack scheduler
(`libyul/backends/evm/SSAEVMCodeTransform.cpp`).

The C++ source is shallowly embedded: the scheduler's mutable state
(`m_assembly`, `m_stack`, `m_blockData`, `m_stackErrors`, ...) becomes an
explicit `TransformState` threaded through a state-and-error monad `M`
(`yulAssert` failures become `Except.error`, modelling the fatal
internal-consistency fault).  Machine stacks are modelled as Lean lists with
the HEAD of the list being the TOP of the stack (`m_stack.back()` in C++).

The rearrangement routines (`operator()(Operation const&, ...)`,
`createStackTop`, `bringUpSlot`, the function visit) are unimplemented
`// todo` stubs in the source; those are modelled from the specification and
are marked `Modelled from the spec:` in their doc comments.  Everything else
is translated directly from the source.
-/

namespace SSAEVM

/-- One physical operand-stack position: an SSA value or a jump-target label
(`SSAEVMCodeTransform::StackSlot = std::variant<SSACFG::ValueId, LabelID>`). -/
inductive StackSlot where
  | value (v : Nat)
  | label (l : Nat)
deriving DecidableEq, Repr

/-- Per-value defining information of the SSA CFG
(`SSACFG::ValueInfo`: unreachable / literal / variable / phi). -/
inductive ValueInfo where
  | unreachableValue
  | literalValue (val : Nat)
  | variableValue
  | phiValue
deriving DecidableEq, Repr

/-- One SSA operation: declared outputs, an opaque effect tag (builtin or
call kind), and declared inputs (`SSACFG::Operation`). -/
structure Operation where
  outputs : List Nat
  kind : Nat
  inputs : List Nat
deriving DecidableEq, Repr

/-- A basic block of the SSA CFG; only the ordered operation list is needed
by the scheduler fragment under study. -/
structure BasicBlock where
  operations : List Operation
deriving DecidableEq, Repr

/-- Identity and source name of a `Scope::Function` (the pointer identity is
modelled by the numeric `fid`). -/
structure FunctionInfo where
  fid : Nat
  name : String
deriving DecidableEq, Repr

/-- The SSA control-flow graph of one compiled unit (`SSACFG`):
blocks indexed by block id, value-info lookup, the optional function the
unit belongs to, argument/return lists and the optional AST debug id. -/
structure SSACFG where
  blocks : List BasicBlock
  valueInfo : Nat → ValueInfo
  function : Option FunctionInfo
  arguments : List Nat
  returns : List Nat
  astID : Option Nat

/-- Number of blocks of the unit (`SSACFG::numBlocks`). -/
def SSACFG.numBlocks (cfg : SSACFG) : Nat := cfg.blocks.length

/-- The whole program: the entry-sequence graph and one graph per function
(`ControlFlow` with `mainGraph` and `functionGraphMapping`). -/
structure ControlFlow where
  mainGraph : SSACFG
  functionGraphMapping : List (FunctionInfo × SSACFG)

/-- The liveness oracle (`SSACFGLiveness`, an external collaborator):
for each block id, the ordered live-out sets, one per operation. -/
structure SSACFGLiveness where
  operationsLiveOut : Nat → List (List Nat)

/-- Primitive instruction requests sent to the assembly
(pop / swap-at-depth / duplicate-at-depth / push-constant / push-label /
builtin-or-call effect). -/
inductive Instr where
  | pop
  | swap (n : Nat)
  | dup (n : Nat)
  | push (c : Nat)
  | pushLabel (l : Nat)
  | opEffect (kind : Nat) (ins : Nat) (outs : Nat)
deriving DecidableEq, Repr

/-- Events recorded by the instruction sink (`AbstractAssembly`). -/
inductive AsmEvent where
  | instr (i : Instr)
  | labelDef (l : Nat)
  | setStackHeight (h : Nat)
deriving DecidableEq, Repr

/-- State of the instruction sink: the next free label id, the names given
to named labels, and the ordered event stream. -/
structure AsmState where
  nextLabelId : Nat
  labelNames : List (Nat × String)
  events : List AsmEvent
deriving DecidableEq, Repr

/-- Allocate a fresh anonymous label (`AbstractAssembly::newLabelId`). -/
def AsmState.newLabelId (a : AsmState) : Nat × AsmState :=
  (a.nextLabelId, { a with nextLabelId := a.nextLabelId + 1 })

/-- Allocate a fresh label carrying a human-readable name hint
(`AbstractAssembly::namedLabel`); argument/return counts and the debug id
are bookkeeping of the external sink and are not tracked further. -/
def AsmState.namedLabel (a : AsmState) (name : String) (_args _rets : Nat)
    (_ast : Option Nat) : Nat × AsmState :=
  (a.nextLabelId,
    { a with
      nextLabelId := a.nextLabelId + 1
      labelNames := a.labelNames ++ [(a.nextLabelId, name)] })

/-- Append an event to the sink's stream. -/
def AsmState.append (a : AsmState) (e : AsmEvent) : AsmState :=
  { a with events := a.events ++ [e] }

/-- A recorded stack-too-deep diagnostic (`StackTooDeepError`): which unit
and which program point (block) it is attributed to. -/
structure StackTooDeepError where
  functionName : Option String
  blockId : Nat
deriving DecidableEq, Repr

/-- Per-block scheduling metadata (`SSAEVMCodeTransform::BlockData`):
the lazily assigned label and the required entry stack layout. -/
structure BlockData where
  label : Option Nat := none
  stackIn : Option (List StackSlot) := none
deriving DecidableEq, Repr

/-- The scheduler's mutable state: the sink, the working stack model
(`m_stack`, head = top), per-block metadata (`m_blockData`), the collected
violations (`m_stackErrors`), the current block (`m_currentBlock`) and the
function label table (`m_functionLabels`). -/
structure TransformState where
  asm : AsmState
  stack : List StackSlot
  blockData : List BlockData
  stackErrors : List StackTooDeepError
  currentBlock : Nat
  functionLabels : List (Nat × Nat)
deriving DecidableEq, Repr

/-- The scheduler monad: state passing over `TransformState`, with
`Except String` modelling fatal `yulAssert` faults. -/
def M (α : Type) : Type := TransformState → Except String (α × TransformState)

instance : Monad M where
  pure a := fun s => .ok (a, s)
  bind x f := fun s =>
    match x s with
    | .ok (a, s') => f a s'
    | .error e => .error e

/-- Read the whole scheduler state. -/
def getState : M TransformState := fun s => .ok (s, s)

/-- Apply a pure update to the scheduler state. -/
def modifyState (f : TransformState → TransformState) : M Unit :=
  fun s => .ok ((), f s)

/-- Embedding of `yulAssert`: succeed iff the condition holds, otherwise raise the fatal
internal-consistency fault carrying the message. -/
def yulAssert (p : Prop) [Decidable p] (msg : String) : M Unit :=
  fun s => if p then .ok ((), s) else .error msg

/-- Lift a fallible pure computation into the monad. -/
def liftExcept {α : Type} (x : Except String α) : M α :=
  fun s => match x with
  | .ok a => .ok (a, s)
  | .error e => .error e

/-- Monadic wrapper for `AbstractAssembly::appendInstruction`. -/
def appendInstruction (i : Instr) : M Unit :=
  modifyState fun s => { s with asm := s.asm.append (.instr i) }

/-- Monadic wrapper for `AbstractAssembly::appendLabel`. -/
def appendLabel (l : Nat) : M Unit :=
  modifyState fun s => { s with asm := s.asm.append (.labelDef l) }

/-- Monadic wrapper for `AbstractAssembly::setStackHeight`. -/
def setStackHeight (h : Nat) : M Unit :=
  modifyState fun s => { s with asm := s.asm.append (.setStackHeight h) }

/-- Monadic wrapper for `AbstractAssembly::newLabelId`. -/
def newLabelId : M Nat := fun s =>
  let (l, a) := s.asm.newLabelId
  .ok (l, { s with asm := a })

/-- Read `m_blockData.at(b)`; out-of-range access is the container's own
fatal exception. -/
def blockDataGet (b : Nat) : M BlockData := fun s =>
  match s.blockData.get? b with
  | some bd => .ok (bd, s)
  | none => .error "blockData: out of range"

/-- Write `m_blockData.at(b)`. -/
def blockDataSet (b : Nat) (bd : BlockData) : M Unit := fun s =>
  if b < s.blockData.length then .ok ((), { s with blockData := s.blockData.set b bd })
  else .error "blockData: out of range"

/-- Read `m_cfg.block(b)`; out-of-range is fatal. -/
def cfgBlock (cfg : SSACFG) (b : Nat) : M BasicBlock := fun s =>
  match cfg.blocks.get? b with
  | some blk => .ok (blk, s)
  | none => .error "cfg block: out of range"

/-- Modelled from the spec: `evmasm::swapInstruction` (libevmasm, outside the
given fragment) maps a swap distance to the SWAP1..SWAP16 opcode and asserts
that the distance is within the machine's maximum addressable depth of 16. -/
def swapInstruction (n : Nat) : Except String Instr :=
  if 1 ≤ n ∧ n ≤ 16 then .ok (.swap n) else .error "invalid swap instruction"

/-- Modelled from the spec: `evmasm::dupInstruction` (libevmasm, outside the
given fragment) maps a duplication depth to the DUP1..DUP16 opcode and asserts
that the depth is within the machine's maximum addressable depth of 16. -/
def dupInstruction (n : Nat) : Except String Instr :=
  if 1 ≤ n ∧ n ≤ 16 then .ok (.dup n) else .error "invalid dup instruction"

/-- Embedding of `SSAEVMCodeTransform::pop`: assert the working stack is non-empty,
remove its top slot and emit a POP. -/
def pop : M Unit := fun s =>
  if s.stack.isEmpty then .error "pop: empty stack"
  else .ok ((), { s with stack := s.stack.tail, asm := s.asm.append (.instr .pop) })

/-- Exchange the top slot (list head) with the slot `d` positions below it
(`std::swap(m_stack[m_stack.size() - d - 1], m_stack.back())`). -/
def swapTop (d : Nat) (l : List StackSlot) : List StackSlot :=
  match l.get? 0, l.get? d with
  | some a, some b => (l.set 0 b).set d a
  | _, _ => l

/-- Embedding of `SSAEVMCodeTransform::swap`: emit the swap instruction for depth `d`
(faulting inside `swapInstruction` when the depth is not addressable), assert
the stack is deep enough, and exchange the top slot with the slot `d`
positions below it. -/
def swap (d : Nat) : M Unit := fun s =>
  match swapInstruction d with
  | .error e => .error e
  | .ok i =>
    if d < s.stack.length then
      .ok ((), { s with asm := s.asm.append (.instr i), stack := swapTop d s.stack })
    else .error "swap: stack too shallow"

/-- Push a slot onto the working stack model. -/
def pushSlot (slot : StackSlot) : M Unit :=
  modifyState fun s => { s with stack := slot :: s.stack }

/-- Record one Depth-Limit Violation attributed to the current block of the
unit being compiled. -/
def recordTooDeep (cfg : SSACFG) : M Unit :=
  modifyState fun s =>
    { s with stackErrors :=
        s.stackErrors ++ [{ functionName := cfg.function.map (·.name), blockId := s.currentBlock }] }

/-- Pure characterization of when bringing `slot` to the top of `stk` needs a
depth beyond the addressable bound: the slot is a non-literal value whose
shallowest occurrence sits deeper than DUP16 can reach. -/
def slotDeep (cfg : SSACFG) (slot : StackSlot) (stk : List StackSlot) : Bool :=
  match slot with
  | .label _ => false
  | .value v =>
    match cfg.valueInfo v with
    | .literalValue _ => false
    | _ =>
      match stk.findIdx? (fun t => decide (t = slot)) with
      | some d => decide (16 < d + 1)
      | none => false

/-- Modelled from the spec: `SSAEVMCodeTransform::bringUpSlot` is a `// todo`
stub in the source.  Per the spec, a label slot or a Literal value is
rematerialized by a push; an Ordinary value present on the stack is duplicated
to the top when its depth is addressable; a value beyond the addressable
depth yields no out-of-bound instruction but a best-effort placement, and the
returned flag reports the depth-limit hit so the caller can record one
violation per program point; an Unreachable value must never be scheduled. -/
def bringUpSlot (cfg : SSACFG) (slot : StackSlot) : M Bool := fun s =>
  match slot with
  | .label l =>
      .ok (false, { s with asm := s.asm.append (.instr (.pushLabel l)), stack := slot :: s.stack })
  | .value v =>
    match cfg.valueInfo v with
    | .literalValue c =>
        .ok (false, { s with asm := s.asm.append (.instr (.push c)), stack := slot :: s.stack })
    | .unreachableValue => .error "unreachable value scheduled onto the stack"
    | _ =>
      match s.stack.findIdx? (fun t => decide (t = slot)) with
      | some d =>
        if d + 1 ≤ 16 then
          match dupInstruction (d + 1) with
          | .ok i => .ok (false, { s with asm := s.asm.append (.instr i), stack := slot :: s.stack })
          | .error e => .error e
        else
          .ok (true, { s with stack := slot :: s.stack })
      | none => .error "slot not found on stack"

/-- Bring every slot of the target top onto the stack, deepest target slot
first, so that the list `targetTop` (head = final top) ends up literally on
top of the previous stack; returns whether any slot hit the depth limit. -/
def bringUpSlots (cfg : SSACFG) : List StackSlot → M Bool
  | [] => pure false
  | t :: rest => do
      let d1 ← bringUpSlots cfg rest
      let d2 ← bringUpSlot cfg t
      pure (d1 || d2)

/-- Pure mirror of `bringUpSlots`: whether arranging `target` on top of `stk`
hits the depth limit for at least one slot. -/
def anyTooDeep (cfg : SSACFG) : List StackSlot → List StackSlot → Bool
  | [], _ => false
  | t :: rest, stk => anyTooDeep cfg rest stk || slotDeep cfg t (rest ++ stk)

/-- Modelled from the spec: `SSAEVMCodeTransform::createStackTop` is a
`// todo` stub in the source.  Per the spec it arranges the required slots on
the top of the working stack and records exactly one Depth-Limit Violation
for this program point when the rearrangement needed an unaddressable depth. -/
def createStackTop (cfg : SSACFG) (targetTop : List StackSlot)
    (_liveOut : List Nat) : M Unit := do
  let deep ← bringUpSlots cfg targetTop
  if deep then recordTooDeep cfg else pure ()

/-- A top-of-stack slot is dead for the coming operation when it is a value
neither in the live-out set nor among the operation's inputs (labels are
return-address slots and are never discarded here). -/
def deadTop (op : Operation) (liveOut : List Nat) (slot : StackSlot) : Bool :=
  match slot with
  | .label _ => false
  | .value v => !(liveOut.contains v) && !(op.inputs.contains v)

/-- Emit `n` pops. -/
def popN : Nat → M Unit
  | 0 => pure ()
  | n + 1 => do
      pop
      popN n

/-- Modelled from the spec: values that become dead (not live-out and not a
needed operand) are discarded from the top via pops; a live value is never
popped. -/
def discardDead (op : Operation) (liveOut : List Nat) : M Unit := do
  let s ← getState
  popN (s.stack.takeWhile (deadTop op liveOut)).length

/-- Modelled from the spec: rearrange the working stack so the operation's
declared inputs occupy the top positions in declared order (first input on
top), discarding dead top slots first. -/
def arrangeStack (cfg : SSACFG) (op : Operation) (liveOut : List Nat) : M Unit := do
  discardDead op liveOut
  createStackTop cfg (op.inputs.map StackSlot.value) liveOut

/-- Modelled from the spec: the body of
`SSAEVMCodeTransform::operator()(SSACFG::Operation const&, std::set<SSACFG::ValueId> const&)`
is a `// todo` stub in the source.  Per the spec: bring the declared inputs
to the top in declared order, emit the operation's effect, then update the
working stack by removing the consumed inputs and pushing the declared
outputs in declared order. -/
def processOperation (cfg : SSACFG) (op : Operation) (liveOut : List Nat) : M Unit := do
  arrangeStack cfg op liveOut
  appendInstruction (.opEffect op.kind op.inputs.length op.outputs.length)
  modifyState fun s =>
    { s with stack := (op.outputs.map StackSlot.value).reverse ++ s.stack.drop op.inputs.length }

/-- Process the operations of a block in order, each paired with its
post-operation live-out set. -/
def processOps (cfg : SSACFG) : List (Operation × List Nat) → M Unit
  | [] => pure ()
  | (op, lo) :: rest => do
      processOperation cfg op lo
      processOps cfg rest

/-- Label and entry-layout phase of `SSAEVMCodeTransform::operator()(BlockId)`:
materialize the block's label lazily and emit it; assert the required entry
layout was already established; load the working stack from it and report the
resulting height to the sink.  (The `std::cout` debugging line of the source
writes to stdout, not to the sink, and is not modelled.) -/
def blockSetup (b : Nat) : M Unit := do
  let bd ← blockDataGet b
  match bd.label with
  | some l => appendLabel l
  | none => do
      let l ← newLabelId
      blockDataSet b { bd with label := some l }
      appendLabel l
  let bd2 ← blockDataGet b
  yulAssert (bd2.stackIn.isSome = true) ("No starting layout for block b" ++ toString b)
  modifyState fun s => { s with stack := bd2.stackIn.getD [] }
  let s ← getState
  setStackHeight s.stack.length

/-- Body of the per-block traversal: setup, then the operation/liveness
count assertion, then the zipped in-order processing of the operations. -/
def blockBody (cfg : SSACFG) (lv : SSACFGLiveness) (b : Nat) : M Unit := do
  blockSetup b
  let blk ← cfgBlock cfg b
  yulAssert (blk.operations.length = (lv.operationsLiveOut b).length)
    "operation count differs from liveness record count"
  processOps cfg (blk.operations.zip (lv.operationsLiveOut b))

/-- Embedding of `SSAEVMCodeTransform::operator()(SSACFG::BlockId)`: note the current
block, save the working stack and clear it (`ScopedSaveAndRestore`), run the
block body, and restore the saved working stack on return. -/
def blockVisit (cfg : SSACFG) (lv : SSACFGLiveness) (b : Nat) : M Unit := fun s =>
  match blockBody cfg lv b { s with currentBlock := b, stack := [] } with
  | .error e => .error e
  | .ok ((), s') => .ok ((), { s' with stack := s.stack })

/-- The label-naming policy for functions (`UseNamedLabels`). -/
inductive UseNamedLabels where
  | Never
  | YesIfAvailable
  | YesAndForceUnique
deriving DecidableEq, Repr

/-- Embedding of `std::set<YulString>::insert`: returns the grown set and whether the
element was newly inserted. -/
def insertName (s : List String) (n : String) : List String × Bool :=
  if s.contains n then (s, false) else (n :: s, true)

/-- The `m_functionLabels` initializer of the `SSAEVMCodeTransform`
constructor: for the unit's function (when present), insert its name into a
freshly created local name set, assert non-duplication under the forced-unique
policy, and allocate a named or anonymous label accordingly. -/
def mkFunctionLabels (policy : UseNamedLabels) (cfg : SSACFG) (asm : AsmState) :
    Except String (List (Nat × Nat) × AsmState) :=
  match cfg.function with
  | none => .ok ([], asm)
  | some fn =>
    let assignedFunctionNames : List String := []
    let inserted := (insertName assignedFunctionNames fn.name).2
    let nameAlreadySeen := !inserted
    if policy = UseNamedLabels.YesAndForceUnique ∧ nameAlreadySeen = true then
      .error "duplicate function name under forced-unique labels"
    else
      let useNamedLabel := policy ≠ UseNamedLabels.Never ∧ nameAlreadySeen = false
      let (lab, asm') :=
        if useNamedLabel then
          asm.namedLabel fn.name cfg.arguments.length cfg.returns.length cfg.astID
        else asm.newLabelId
      .ok ([(fn.fid, lab)], asm')

/-- The `SSAEVMCodeTransform` constructor: compute the function label table
and allocate empty per-block metadata for every block of the unit. -/
def mkTransform (policy : UseNamedLabels) (cfg : SSACFG) (asm : AsmState) :
    Except String TransformState :=
  match mkFunctionLabels policy cfg asm with
  | .error e => .error e
  | .ok (labels, asm') =>
    .ok
      { asm := asm'
        stack := []
        blockData := List.replicate cfg.numBlocks {}
        stackErrors := []
        currentBlock := 0
        functionLabels := labels }

/-- Embedding of `SSAEVMCodeTransform::getFunctionLabel`: `m_functionLabels.at(&f)`,
faulting on a reference to an entry that was never allocated. -/
def getFunctionLabel (fid : Nat) : M Nat := fun s =>
  match s.functionLabels.lookup fid with
  | some l => .ok (l, s)
  | none => .error "function label was never allocated"

/-- Embedding of `run` lines 82-84: force the entry unit's block 0 metadata to carry the
empty required-entry stack layout. -/
def forceEntryEmpty (st : TransformState) : Except String TransformState :=
  match st.blockData.get? 0 with
  | some bd => .ok { st with blockData := st.blockData.set 0 { bd with stackIn := some [] } }
  | none => .error "blockData: out of range"

/-- The entry-unit part of `SSAEVMCodeTransform::run`: construct the entry
scheduler, force block 0 to start from the empty stack, visit block 0, and
return the unit's violations together with the advanced sink state.  (CFG
construction and the liveness computation are external collaborators; they
enter as the `cf` and `oracle` inputs.) -/
def runMainUnit (policy : UseNamedLabels) (cf : ControlFlow)
    (oracle : SSACFG → SSACFGLiveness) (asm : AsmState) :
    Except String (List StackTooDeepError × AsmState) :=
  match mkTransform policy cf.mainGraph asm with
  | .error e => .error e
  | .ok st =>
    match forceEntryEmpty st with
    | .error e => .error e
    | .ok st1 =>
      match blockVisit cf.mainGraph (oracle cf.mainGraph) 0 st1 with
      | .error e => .error e
      | .ok ((), st') => .ok (st'.stackErrors, st'.asm)

/-- Modelled from the spec: the body of
`SSAEVMCodeTransform::operator()(Scope::Function const&, SSACFG const&)` is a
`// todo` stub in the source.  Per the spec, a function unit's entry block
required layout comes from the calling convention — the function's own label
as the return-address slot, then the arguments pushed in declared order —
after which the block traversal is identical to the entry unit's. -/
def functionVisit (cfg : SSACFG) (lv : SSACFGLiveness) (fn : FunctionInfo) : M Unit := do
  let lab ← getFunctionLabel fn.fid
  let entryLayout := (cfg.arguments.map StackSlot.value).reverse ++ [StackSlot.label lab]
  let bd ← blockDataGet 0
  blockDataSet 0 { bd with stackIn := some entryLayout }
  blockVisit cfg lv 0

/-- One function unit of `SSAEVMCodeTransform::run`: fresh scheduler, visit
the function, return its violations and the advanced sink state. -/
def runFunctionUnit (policy : UseNamedLabels) (fn : FunctionInfo) (cfg : SSACFG)
    (oracle : SSACFG → SSACFGLiveness) (asm : AsmState) :
    Except String (List StackTooDeepError × AsmState) :=
  match mkTransform policy cfg asm with
  | .error e => .error e
  | .ok st =>
    match functionVisit cfg (oracle cfg) fn st with
    | .error e => .error e
    | .ok ((), st') => .ok (st'.stackErrors, st'.asm)

/-- The function loop of `SSAEVMCodeTransform::run`: run each function unit
in order, appending its violations to the accumulator only when non-empty
(mirroring the `if (!m_stackErrors.empty()) insert` guard). -/
def runLoop (policy : UseNamedLabels) (oracle : SSACFG → SSACFGLiveness) :
    List (FunctionInfo × SSACFG) → List StackTooDeepError → AsmState →
    Except String (List StackTooDeepError × AsmState)
  | [], acc, asm => .ok (acc, asm)
  | (fn, g) :: rest, acc, asm =>
    match runFunctionUnit policy fn g oracle asm with
    | .error e => .error e
    | .ok (errs, asm') =>
      runLoop policy oracle rest (if errs.isEmpty then acc else acc ++ errs) asm'

/-- Reference form of the function loop: the per-unit violation lists, in
processing order, without any accumulator. -/
def runUnitsSpec (policy : UseNamedLabels) (oracle : SSACFG → SSACFGLiveness) :
    List (FunctionInfo × SSACFG) → AsmState →
    Except String (List (List StackTooDeepError) × AsmState)
  | [], asm => .ok ([], asm)
  | (fn, g) :: rest, asm =>
    match runFunctionUnit policy fn g oracle asm with
    | .error e => .error e
    | .ok (errs, asm') =>
      match runUnitsSpec policy oracle rest asm' with
      | .error e => .error e
      | .ok (rest', asm'') => .ok (errs :: rest', asm'')

/-- Embedding of `SSAEVMCodeTransform::run`: run the entry unit, seed the violation list
from it (when non-empty), then run every function unit in order, aggregating
violations. -/
def run (policy : UseNamedLabels) (cf : ControlFlow)
    (oracle : SSACFG → SSACFGLiveness) (asm : AsmState) :
    Except String (List StackTooDeepError × AsmState) :=
  match runMainUnit policy cf oracle asm with
  | .error e => .error e
  | .ok (mainErrs, asm1) =>
    runLoop policy oracle cf.functionGraphMapping
      (if mainErrs.isEmpty then [] else mainErrs) asm1

/-- Whether a sink event is a primitive instruction (as opposed to a label
definition or a stack-height report). -/
def isInstrE : AsmEvent → Bool
  | .instr _ => true
  | _ => false

/-- Whether an event respects the machine's addressable-depth bound: a swap
or duplicate request must carry a depth between 1 and 16; any other event is
unconstrained. -/
def depthOK : AsmEvent → Bool
  | .instr (.swap n) => decide (1 ≤ n ∧ n ≤ 16)
  | .instr (.dup n) => decide (1 ≤ n ∧ n ≤ 16)
  | _ => true

/-- The stack heights reported to the sink within an event stream, in order. -/
def heightsOf (es : List AsmEvent) : List Nat :=
  es.filterMap fun e =>
    match e with
    | .setStackHeight h => some h
    | _ => none

/-- Frame relation of the operand-arrangement phase: per-block metadata, the
current block, the label table and the sink's label allocation are untouched,
and the sink's event stream only grows by instruction events that respect the
depth bound. -/
def EmitsOK (s s' : TransformState) : Prop :=
  s'.blockData = s.blockData ∧ s'.currentBlock = s.currentBlock ∧
  s'.functionLabels = s.functionLabels ∧ s'.asm.nextLabelId = s.asm.nextLabelId ∧
  s'.asm.labelNames = s.asm.labelNames ∧
  ∃ d, s'.asm.events = s.asm.events ++ d ∧ ∀ e ∈ d, isInstrE e = true ∧ depthOK e = true

/-- Example operation: one input `v1`, one output `v7`, effect tag 3. -/
def exOp : Operation := ⟨[7], 3, [1]⟩

/-- Example unit: one block holding `exOp`; value 5 is a literal, all other
values ordinary. -/
def exCfg : SSACFG :=
  ⟨[⟨[exOp]⟩], fun v => if v = 5 then .literalValue 42 else .variableValue, none, [], [], none⟩

/-- Example liveness oracle for `exCfg`: `v1` stays live after `exOp`. -/
def exLv : SSACFGLiveness := ⟨fun _ => [[1]]⟩

/-- A fresh sink. -/
def exAsm : AsmState := ⟨0, [], []⟩

/-- Example scheduler state: working stack `[v1, v2]` (top first), one block
whose required entry layout is `[v1, v2]`. -/
def exState : TransformState :=
  ⟨exAsm, [.value 1, .value 2], [⟨none, some [.value 1, .value 2]⟩], [], 0, []⟩

/-- A 17-slot working stack burying `v1` under sixteen other live values, so
bringing `v1` up needs DUP17 — beyond the addressable bound. -/
def deepStack : List StackSlot :=
  [.value 100, .value 101, .value 102, .value 103, .value 104, .value 105,
   .value 106, .value 107, .value 108, .value 109, .value 110, .value 111,
   .value 112, .value 113, .value 114, .value 115, .value 1]

/-- Live-out set keeping all seventeen values of `deepStack` alive. -/
def deepLive : List Nat :=
  [100, 101, 102, 103, 104, 105, 106, 107, 108, 109, 110, 111, 112, 113, 114, 115, 1]

/-- Scheduler state holding `deepStack`. -/
def deepState : TransformState := ⟨exAsm, deepStack, [], [], 0, []⟩

/-- Two functions with the same source name "f" and two arguments each,
compiled as separate units. -/
def cfgF1 : SSACFG := ⟨[⟨[]⟩], fun _ => .variableValue, some ⟨0, "f"⟩, [1, 2], [], none⟩

/-- Second unit: a distinct function also named "f". -/
def cfgF2 : SSACFG := ⟨[⟨[]⟩], fun _ => .variableValue, some ⟨1, "f"⟩, [3, 4], [], none⟩

/-- Example entry unit: one block with a single zero-input operation
producing the literal value 5. -/
def exMain : SSACFG :=
  ⟨[⟨[⟨[5], 9, []⟩]⟩], fun v => if v = 5 then .literalValue 42 else .variableValue, none, [], [], none⟩

/-- A liveness oracle with all-empty live-out sets, one per operation of each
block, so record counts always match. -/
def exOracle : SSACFG → SSACFGLiveness :=
  fun g => ⟨fun b => ((g.blocks.get? b).map (fun blk => blk.operations.map fun _ => [])).getD []⟩

/-- Example program: the entry unit `exMain` plus one function unit. -/
def exCf : ControlFlow := ⟨exMain, [(⟨0, "f"⟩, cfgF1)]⟩

/-- Result state of `swap 1 exState`. -/
def exSwapOut : TransformState :=
  ⟨⟨0, [], [.instr (.swap 1)]⟩, [.value 2, .value 1],
   [⟨none, some [.value 1, .value 2]⟩], [], 0, []⟩

/-- Result state of `processOperation exCfg exOp [1] exState`. -/
def exOut : TransformState :=
  ⟨⟨0, [], [.instr (.dup 1), .instr (.opEffect 3 1 1)]⟩,
   [.value 7, .value 1, .value 2], [⟨none, some [.value 1, .value 2]⟩], [], 0, []⟩

/-- Result state of `blockVisit exCfg exLv 0 exState`. -/
def exVisitOut : TransformState :=
  ⟨⟨1, [], [.labelDef 0, .setStackHeight 2, .instr (.dup 1), .instr (.opEffect 3 1 1)]⟩,
   [.value 1, .value 2], [⟨some 0, some [.value 1, .value 2]⟩], [], 0, []⟩

/-- Result state of `processOperation exCfg exOp deepLive deepState`: one
violation recorded, no dup or swap emitted. -/
def deepOut : TransformState :=
  ⟨⟨0, [], [.instr (.opEffect 3 1 1)]⟩, .value 7 :: deepStack, [], [⟨none, 0⟩], 0, []⟩

/-- Result state of `pop exState`. -/
def popOut : TransformState :=
  ⟨⟨0, [], [.instr .pop]⟩, [.value 2], [⟨none, some [.value 1, .value 2]⟩], [], 0, []⟩

/-- A scheduler state with an empty working stack. -/
def emptyStackState : TransformState := ⟨exAsm, [], [], [], 0, []⟩

/-- A scheduler state whose block 0 has no established entry layout. -/
def noLayoutState : TransformState := ⟨exAsm, [], [⟨none, none⟩], [], 0, []⟩

/-- The state `noLayoutState` after forcing the empty entry layout. -/
def noLayoutForced : TransformState := ⟨exAsm, [], [⟨none, some []⟩], [], 0, []⟩

/-- A liveness oracle returning no records at all (count mismatch for any
non-empty block). -/
def lvEmpty : SSACFGLiveness := ⟨fun _ => []⟩

/-- Example program with no function units, for exercising the aggregation
of `run` at a small input. -/
def exCfMain : ControlFlow := ⟨exMain, []⟩

/-- Sink state after `runMainUnit UseNamedLabels.Never exCf exOracle exAsm`. -/
def runMainOutAsm : AsmState :=
  ⟨1, [], [.labelDef 0, .setStackHeight 0, .instr (.opEffect 9 0 1)]⟩

/-- Sink state after `run UseNamedLabels.Never exCf exOracle exAsm`. -/
def runOutAsm : AsmState :=
  ⟨3, [], [.labelDef 0, .setStackHeight 0, .instr (.opEffect 9 0 1),
    .labelDef 2, .setStackHeight 3]⟩

theorem bind_run {α β : Type} (x : M α) (f : α → M β) (s : TransformState) :
    (x >>= f) s =
      match x s with
      | .ok (a, s') => f a s'
      | .error e => .error e := rfl

theorem pure_run {α : Type} (a : α) (s : TransformState) :
    (pure a : M α) s = .ok (a, s) := rfl

theorem getState_run (s : TransformState) : getState s = .ok (s, s) := rfl

theorem modifyState_run (f : TransformState → TransformState) (s : TransformState) :
    modifyState f s = .ok ((), f s) := rfl

theorem yulAssert_run (p : Prop) [Decidable p] (msg : String) (s : TransformState) :
    yulAssert p msg s = if p then .ok ((), s) else .error msg := rfl

theorem emitsOK_refl (s : TransformState) : EmitsOK s s :=
  ⟨rfl, rfl, rfl, rfl, rfl, [], by simp, by simp⟩

theorem emitsOK_trans {s s' s'' : TransformState} (h1 : EmitsOK s s') (h2 : EmitsOK s' s'') :
    EmitsOK s s'' := by
  obtain ⟨b1, c1, f1, n1, l1, d1, e1, a1⟩ := h1
  obtain ⟨b2, c2, f2, n2, l2, d2, e2, a2⟩ := h2
  refine ⟨b2.trans b1, c2.trans c1, f2.trans f1, n2.trans n1, l2.trans l1, d1 ++ d2, ?_, ?_⟩
  · rw [e2, e1, List.append_assoc]
  · intro e he
    rcases List.mem_append.mp he with h | h
    · exact a1 e h
    · exact a2 e h

theorem emitsOK_push_instr (s : TransformState) (i : Instr) (st : List StackSlot)
    (h : depthOK (.instr i) = true) :
    EmitsOK s { s with asm := s.asm.append (.instr i), stack := st } :=
  ⟨rfl, rfl, rfl, rfl, rfl, [.instr i], rfl, by
    intro e he
    simp only [List.mem_singleton] at he
    subst he
    exact ⟨rfl, h⟩⟩

theorem emitsOK_set_stack (s : TransformState) (st : List StackSlot) :
    EmitsOK s { s with stack := st } :=
  ⟨rfl, rfl, rfl, rfl, rfl, [], by simp, by simp⟩

theorem bringUpSlot_char {cfg : SSACFG} {slot : StackSlot} {s : TransformState}
    {b : Bool} {s' : TransformState} (h : bringUpSlot cfg slot s = .ok (b, s')) :
    s'.stack = slot :: s.stack ∧ b = slotDeep cfg slot s.stack ∧
    s'.stackErrors = s.stackErrors ∧ EmitsOK s s' := by
  cases slot with
  | label l =>
      simp only [bringUpSlot] at h
      obtain ⟨hb, hs⟩ : false = b ∧ _ = s' := by
        have := h
        simp only [Except.ok.injEq, Prod.mk.injEq] at this
        exact this
      subst hb
      subst hs
      exact ⟨rfl, rfl, rfl, emitsOK_push_instr s _ _ rfl⟩
  | value v =>
      simp only [bringUpSlot] at h
      cases hvi : cfg.valueInfo v with
      | unreachableValue =>
          rw [hvi] at h
          dsimp only at h
          exact absurd h (by simp)
      | literalValue c =>
          rw [hvi] at h
          dsimp only at h
          simp only [Except.ok.injEq, Prod.mk.injEq] at h
          obtain ⟨hb, hs⟩ := h
          subst hb
          subst hs
          refine ⟨rfl, ?_, rfl, emitsOK_push_instr s _ _ rfl⟩
          simp [slotDeep, hvi]
      | variableValue =>
          rw [hvi] at h
          dsimp only at h
          cases hidx : (s.stack.findIdx? (fun t => decide (t = StackSlot.value v))) with
          | none => rw [hidx] at h; exact absurd h (by simp)
          | some d =>
              rw [hidx] at h
              dsimp only at h
              by_cases hd : d + 1 ≤ 16
              · rw [if_pos hd] at h
                have hdup : dupInstruction (d + 1) = .ok (.dup (d + 1)) := by
                  simp [dupInstruction, hd, Nat.succ_le_succ (Nat.zero_le d)]
                rw [hdup] at h
                dsimp only at h
                simp only [Except.ok.injEq, Prod.mk.injEq] at h
                obtain ⟨hb, hs⟩ := h
                subst hb
                subst hs
                refine ⟨rfl, ?_, rfl, emitsOK_push_instr s _ _ ?_⟩
                · simp [slotDeep, hvi, hidx]
                  omega
                · simp [depthOK]
                  omega
              · rw [if_neg hd] at h
                simp only [Except.ok.injEq, Prod.mk.injEq] at h
                obtain ⟨hb, hs⟩ := h
                subst hb
                subst hs
                refine ⟨rfl, ?_, rfl, emitsOK_set_stack s _⟩
                simp [slotDeep, hvi, hidx]
                omega
      | phiValue =>
          rw [hvi] at h
          dsimp only at h
          cases hidx : (s.stack.findIdx? (fun t => decide (t = StackSlot.value v))) with
          | none => rw [hidx] at h; exact absurd h (by simp)
          | some d =>
              rw [hidx] at h
              dsimp only at h
              by_cases hd : d + 1 ≤ 16
              · rw [if_pos hd] at h
                have hdup : dupInstruction (d + 1) = .ok (.dup (d + 1)) := by
                  simp [dupInstruction, hd, Nat.succ_le_succ (Nat.zero_le d)]
                rw [hdup] at h
                dsimp only at h
                simp only [Except.ok.injEq, Prod.mk.injEq] at h
                obtain ⟨hb, hs⟩ := h
                subst hb
                subst hs
                refine ⟨rfl, ?_, rfl, emitsOK_push_instr s _ _ ?_⟩
                · simp [slotDeep, hvi, hidx]
                  omega
                · simp [depthOK]
                  omega
              · rw [if_neg hd] at h
                simp only [Except.ok.injEq, Prod.mk.injEq] at h
                obtain ⟨hb, hs⟩ := h
                subst hb
                subst hs
                refine ⟨rfl, ?_, rfl, emitsOK_set_stack s _⟩
                simp [slotDeep, hvi, hidx]
                omega

theorem bringUpSlots_char {cfg : SSACFG} :
    ∀ {ts : List StackSlot} {s : TransformState} {b : Bool} {s' : TransformState},
    bringUpSlots cfg ts s = .ok (b, s') →
    s'.stack = ts ++ s.stack ∧ b = anyTooDeep cfg ts s.stack ∧
    s'.stackErrors = s.stackErrors ∧ EmitsOK s s' := by
  intro ts
  induction ts with
  | nil =>
      intro s b s' h
      simp only [bringUpSlots, pure_run, Except.ok.injEq, Prod.mk.injEq] at h
      obtain ⟨hb, hs⟩ := h
      subst hb
      subst hs
      exact ⟨by simp, by simp [anyTooDeep], rfl, emitsOK_refl s⟩
  | cons t rest ih =>
      intro s b s' h
      simp only [bringUpSlots, bind_run] at h
      cases h1 : bringUpSlots cfg rest s with
      | error e => rw [h1] at h; exact absurd h (by simp)
      | ok p =>
          obtain ⟨d1, s1⟩ := p
          rw [h1] at h
          dsimp only at h
          cases h2 : bringUpSlot cfg t s1 with
          | error e => rw [h2] at h; exact absurd h (by simp)
          | ok q =>
              obtain ⟨d2, s2⟩ := q
              rw [h2] at h
              dsimp only at h
              simp only [pure_run, Except.ok.injEq, Prod.mk.injEq] at h
              obtain ⟨hb, hs⟩ := h
              subst hb
              subst hs
              obtain ⟨ihstack, ihdeep, iherr, ihok⟩ := ih h1
              obtain ⟨hstack2, hdeep2, herr2, hok2⟩ := bringUpSlot_char h2
              refine ⟨?_, ?_, herr2.trans iherr, emitsOK_trans ihok hok2⟩
              · rw [hstack2, ihstack, List.cons_append]
              · rw [ihdeep, hdeep2, ihstack]
                simp [anyTooDeep]

theorem pop_char {s s' : TransformState} (h : pop s = .ok ((), s')) :
    s.stack ≠ [] ∧ s'.stack = s.stack.tail ∧ s'.stackErrors = s.stackErrors ∧
    s'.asm.events = s.asm.events ++ [.instr .pop] ∧ EmitsOK s s' := by
  unfold pop at h
  by_cases he : s.stack.isEmpty = true
  · rw [if_pos he] at h; exact absurd h (by simp)
  · rw [if_neg he] at h
    simp only [Except.ok.injEq, Prod.mk.injEq, true_and] at h
    subst h
    refine ⟨?_, rfl, rfl, rfl, ?_⟩
    · intro hnil
      rw [hnil] at he
      exact he rfl
    · exact ⟨rfl, rfl, rfl, rfl, rfl, [.instr .pop], rfl, by
        intro e hmem
        simp only [List.mem_singleton] at hmem
        subst hmem
        exact ⟨rfl, rfl⟩⟩

theorem popN_char :
    ∀ {n : Nat} {s s' : TransformState}, popN n s = .ok ((), s') →
    n ≤ s.stack.length ∧ s'.stack = s.stack.drop n ∧
    s'.stackErrors = s.stackErrors ∧ EmitsOK s s' := by
  intro n
  induction n with
  | zero =>
      intro s s' h
      simp only [popN, pure_run, Except.ok.injEq, Prod.mk.injEq, true_and] at h
      subst h
      exact ⟨Nat.zero_le _, by simp, rfl, emitsOK_refl s⟩
  | succ n ih =>
      intro s s' h
      simp only [popN, bind_run] at h
      cases hp : pop s with
      | error e => rw [hp] at h; exact absurd h (by simp)
      | ok p =>
          obtain ⟨u, s1⟩ := p
          cases u
          rw [hp] at h
          dsimp only at h
          obtain ⟨hne, htail, herr1, _, hok1⟩ := pop_char hp
          obtain ⟨hlen, hdrop, herr2, hok2⟩ := ih h
          obtain ⟨x, t, hstk⟩ : ∃ x t, s.stack = x :: t := by
            cases hcs : s.stack with
            | nil => exact absurd hcs hne
            | cons x t => exact ⟨x, t, rfl⟩
          refine ⟨?_, ?_, herr2.trans herr1, emitsOK_trans hok1 hok2⟩
          · rw [hstk]
            simp only [List.length_cons]
            have : n ≤ t.length := by
              have := hlen
              rw [htail, hstk] at this
              exact this
            omega
          · rw [hdrop, htail, hstk]
            rfl

theorem drop_length_takeWhile {α : Type} (p : α → Bool) (l : List α) :
    l.drop (l.takeWhile p).length = l.dropWhile p := by
  induction l with
  | nil => rfl
  | cons x t ih =>
      by_cases hp : p x = true
      · rw [List.takeWhile_cons, if_pos hp, List.dropWhile_cons, if_pos hp]
        simpa using ih
      · rw [List.takeWhile_cons, if_neg hp, List.dropWhile_cons, if_neg hp]
        rfl

theorem discardDead_char {op : Operation} {lo : List Nat} {s s' : TransformState}
    (h : discardDead op lo s = .ok ((), s')) :
    s'.stack = s.stack.dropWhile (deadTop op lo) ∧
    s'.stackErrors = s.stackErrors ∧ EmitsOK s s' := by
  simp only [discardDead, bind_run, getState_run] at h
  obtain ⟨_, hdrop, herr, hok⟩ := popN_char h
  refine ⟨?_, herr, hok⟩
  rw [hdrop, drop_length_takeWhile]

theorem emitsOK_set_errors (s : TransformState) (es : List StackTooDeepError) :
    EmitsOK s { s with stackErrors := es } :=
  ⟨rfl, rfl, rfl, rfl, rfl, [], by simp, by simp⟩

theorem createStackTop_char {cfg : SSACFG} {ts : List StackSlot} {lo : List Nat}
    {s s' : TransformState} (h : createStackTop cfg ts lo s = .ok ((), s')) :
    s'.stack = ts ++ s.stack ∧ EmitsOK s s' ∧
    s'.stackErrors =
      (if anyTooDeep cfg ts s.stack = true
       then s.stackErrors ++ [⟨cfg.function.map (fun f => f.name), s.currentBlock⟩]
       else s.stackErrors) := by
  simp only [createStackTop, bind_run] at h
  cases hbs : bringUpSlots cfg ts s with
  | error e => rw [hbs] at h; exact absurd h (by simp)
  | ok p =>
      obtain ⟨deep, s1⟩ := p
      rw [hbs] at h
      dsimp only at h
      obtain ⟨hstack, hdeep, herr, hok⟩ := bringUpSlots_char hbs
      obtain ⟨_, hcb, _, _, _, _⟩ := id hok
      cases deep with
      | false =>
          simp only [Bool.false_eq_true, if_neg, reduceIte, pure_run, Except.ok.injEq,
            Prod.mk.injEq, true_and] at h
          subst h
          rw [← hdeep]
          simp only [Bool.false_eq_true, if_neg, reduceIte]
          exact ⟨hstack, hok, herr⟩
      | true =>
          simp only [reduceIte, recordTooDeep, modifyState_run, Except.ok.injEq,
            Prod.mk.injEq, true_and] at h
          subst h
          rw [← hdeep]
          simp only [reduceIte]
          refine ⟨hstack, emitsOK_trans hok (emitsOK_set_errors s1 _), ?_⟩
          rw [herr, hcb]

theorem arrangeStack_char {cfg : SSACFG} {op : Operation} {lo : List Nat}
    {s s' : TransformState} (h : arrangeStack cfg op lo s = .ok ((), s')) :
    s'.stack = (op.inputs.map StackSlot.value) ++ s.stack.dropWhile (deadTop op lo) ∧
    s'.stackErrors =
      (if anyTooDeep cfg (op.inputs.map StackSlot.value) (s.stack.dropWhile (deadTop op lo)) = true
       then s.stackErrors ++ [⟨cfg.function.map (fun f => f.name), s.currentBlock⟩]
       else s.stackErrors) ∧
    EmitsOK s s' := by
  simp only [arrangeStack, bind_run] at h
  cases hd : discardDead op lo s with
  | error e => rw [hd] at h; exact absurd h (by simp)
  | ok p =>
      obtain ⟨u, s1⟩ := p
      cases u
      rw [hd] at h
      dsimp only at h
      obtain ⟨hstack1, herr1, hok1⟩ := discardDead_char hd
      obtain ⟨hstack2, hok2, herr2⟩ := createStackTop_char h
      obtain ⟨_, hcb1, _, _, _, _⟩ := id hok1
      refine ⟨?_, ?_, emitsOK_trans hok1 hok2⟩
      · rw [hstack2, hstack1]
      · rw [herr2, hstack1, herr1, hcb1]

theorem processOperation_char {cfg : SSACFG} {op : Operation} {lo : List Nat}
    {s s' : TransformState} (h : processOperation cfg op lo s = .ok ((), s')) :
    ∃ s1, arrangeStack cfg op lo s = .ok ((), s1) ∧
      s1.stack = (op.inputs.map StackSlot.value) ++ s.stack.dropWhile (deadTop op lo) ∧
      s'.asm.events = s1.asm.events ++ [.instr (.opEffect op.kind op.inputs.length op.outputs.length)] ∧
      s'.stack = (op.outputs.map StackSlot.value).reverse ++ s.stack.dropWhile (deadTop op lo) ∧
      s'.stackErrors = s1.stackErrors ∧ EmitsOK s s' := by
  simp only [processOperation, bind_run] at h
  cases ha : arrangeStack cfg op lo s with
  | error e => rw [ha] at h; exact absurd h (by simp)
  | ok p =>
      obtain ⟨u, s1⟩ := p
      cases u
      rw [ha] at h
      dsimp only at h
      simp only [appendInstruction, modifyState_run, Except.ok.injEq, Prod.mk.injEq,
        true_and] at h
      subst h
      obtain ⟨hstack1, herr1, hok1⟩ := arrangeStack_char ha
      refine ⟨s1, rfl, hstack1, rfl, ?_, rfl, ?_⟩
      · dsimp only
        rw [hstack1]
        have hlen : op.inputs.length = (op.inputs.map StackSlot.value).length :=
          (List.length_map _ _).symm
        rw [hlen, List.drop_left]
      · refine emitsOK_trans hok1 ?_
        exact emitsOK_push_instr s1 _ _ rfl

theorem processOps_char {cfg : SSACFG} :
    ∀ {items : List (Operation × List Nat)} {s s' : TransformState},
    processOps cfg items s = .ok ((), s') → EmitsOK s s' := by
  intro items
  induction items with
  | nil =>
      intro s s' h
      simp only [processOps, pure_run, Except.ok.injEq, Prod.mk.injEq, true_and] at h
      subst h
      exact emitsOK_refl s
  | cons it rest ih =>
      intro s s' h
      obtain ⟨op, lo⟩ := it
      simp only [processOps, bind_run] at h
      cases hp : processOperation cfg op lo s with
      | error e => rw [hp] at h; exact absurd h (by simp)
      | ok p =>
          obtain ⟨u, s1⟩ := p
          cases u
          rw [hp] at h
          dsimp only at h
          obtain ⟨_, _, _, _, _, _, hok⟩ := processOperation_char hp
          exact emitsOK_trans hok (ih h)

theorem mem_dropWhile_of_mem {α : Type} {p : α → Bool} {x : α} (hx : p x = false) :
    ∀ {l : List α}, x ∈ l → x ∈ l.dropWhile p := by
  intro l
  induction l with
  | nil => intro h; exact absurd h (by simp)
  | cons a t ih =>
      intro hmem
      rw [List.dropWhile_cons]
      by_cases hpa : p a = true
      · rw [if_pos hpa]
        rcases List.mem_cons.mp hmem with hxa | hxt
        · subst hxa
          rw [hx] at hpa
          exact absurd hpa (by simp)
        · exact ih hxt
      · rw [if_neg hpa]
        exact hmem

theorem heightsOf_append (es1 es2 : List AsmEvent) :
    heightsOf (es1 ++ es2) = heightsOf es1 ++ heightsOf es2 :=
  List.filterMap_append es1 es2 _

theorem heightsOf_of_instrs {d : List AsmEvent} (h : ∀ e ∈ d, isInstrE e = true) :
    heightsOf d = [] := by
  rw [heightsOf, List.filterMap_eq_nil]
  intro e he
  have := h e he
  cases e with
  | instr i => rfl
  | labelDef l => exact absurd this (by simp [isInstrE])
  | setStackHeight n => exact absurd this (by simp [isInstrE])

theorem blockDataGet_run (b : Nat) (s : TransformState) :
    blockDataGet b s =
      match s.blockData.get? b with
      | some bd => .ok (bd, s)
      | none => .error "blockData: out of range" := rfl

theorem blockDataSet_run (b : Nat) (bd : BlockData) (s : TransformState) :
    blockDataSet b bd s =
      if b < s.blockData.length then .ok ((), { s with blockData := s.blockData.set b bd })
      else .error "blockData: out of range" := rfl

theorem cfgBlock_run (cfg : SSACFG) (b : Nat) (s : TransformState) :
    cfgBlock cfg b s =
      match cfg.blocks.get? b with
      | some blk => .ok (blk, s)
      | none => .error "cfg block: out of range" := rfl

theorem newLabelId_run (s : TransformState) :
    newLabelId s =
      .ok (s.asm.nextLabelId, { s with asm := { s.asm with nextLabelId := s.asm.nextLabelId + 1 } }) := rfl

theorem blockSetup_run_eq {b : Nat} {s : TransformState} {bd : BlockData}
    (hg : s.blockData.get? b = some bd) :
    blockSetup b s =
      match bd.label, bd.stackIn with
      | some lab, some l =>
          .ok ((), { s with
            asm := (s.asm.append (.labelDef lab)).append (.setStackHeight l.length)
            stack := l })
      | some _, none => .error ("No starting layout for block b" ++ toString b)
      | none, some l =>
          .ok ((), { s with
            asm := ({ s.asm with nextLabelId := s.asm.nextLabelId + 1 }.append
              (.labelDef s.asm.nextLabelId)).append (.setStackHeight l.length)
            blockData := s.blockData.set b { bd with label := some s.asm.nextLabelId }
            stack := l })
      | none, none => .error ("No starting layout for block b" ++ toString b) := by
  have hlt : b < s.blockData.length := (List.get?_eq_some.mp hg).1
  have hg2 : s.blockData[b]? = some bd := by rw [← List.get?_eq_getElem?]; exact hg
  have hset : (s.blockData.set b { bd with label := some s.asm.nextLabelId })[b]? =
      some { bd with label := some s.asm.nextLabelId } := by
    rw [← List.get?_eq_getElem?]
    exact List.get?_set_eq_of_lt _ hlt
  cases hlab : bd.label with
  | some lab =>
      cases hsi : bd.stackIn with
      | some l =>
          simp only [blockSetup, bind_run, blockDataGet_run, newLabelId_run,
            blockDataSet_run, yulAssert_run, modifyState_run, getState_run, hg, hlab, hsi]
          simp [appendLabel, setStackHeight, modifyState, hg2, hsi]
      | none =>
          simp only [blockSetup, bind_run, blockDataGet_run, newLabelId_run,
            blockDataSet_run, yulAssert_run, modifyState_run, getState_run, hg, hlab, hsi]
          simp [appendLabel, setStackHeight, modifyState, hg2, hsi]
  | none =>
      cases hsi : bd.stackIn with
      | some l =>
          rw [hsi] at hset
          simp only [blockSetup, bind_run, blockDataGet_run, newLabelId_run,
            blockDataSet_run, yulAssert_run, modifyState_run, getState_run, hg, hlab]
          simp only [appendLabel, setStackHeight, modifyState, if_pos hlt]
          simp [hg2, hset, hsi, hlab]
      | none =>
          rw [hsi] at hset
          simp only [blockSetup, bind_run, blockDataGet_run, newLabelId_run,
            blockDataSet_run, yulAssert_run, modifyState_run, getState_run, hg, hlab]
          simp only [appendLabel, setStackHeight, modifyState, if_pos hlt]
          simp [hg2, hset, hsi, hlab]

theorem blockSetup_char {b : Nat} {s s' : TransformState} (h : blockSetup b s = .ok ((), s')) :
    ∃ bd l lab, s.blockData.get? b = some bd ∧ bd.stackIn = some l ∧
      s'.stack = l ∧ s'.stackErrors = s.stackErrors ∧ s'.currentBlock = s.currentBlock ∧
      s'.functionLabels = s.functionLabels ∧
      s'.asm.events = s.asm.events ++ [.labelDef lab, .setStackHeight l.length] := by
  cases hg : s.blockData.get? b with
  | none =>
      have herr : blockSetup b s = .error "blockData: out of range" := by
        simp only [blockSetup, bind_run, blockDataGet_run, hg]
      rw [herr] at h
      exact absurd h (by simp)
  | some bd =>
      have heq := blockSetup_run_eq hg
      cases hlab : bd.label with
      | some lab =>
          cases hsi : bd.stackIn with
          | some l =>
              rw [hlab, hsi] at heq
              rw [heq] at h
              simp only [Except.ok.injEq, Prod.mk.injEq, true_and] at h
              subst h
              exact ⟨bd, l, lab, rfl, hsi, rfl, rfl, rfl, rfl, by
                simp [AsmState.append, List.append_assoc]⟩
          | none =>
              rw [hlab, hsi] at heq
              rw [heq] at h
              exact absurd h (by simp)
      | none =>
          cases hsi : bd.stackIn with
          | some l =>
              rw [hlab, hsi] at heq
              rw [heq] at h
              simp only [Except.ok.injEq, Prod.mk.injEq, true_and] at h
              subst h
              exact ⟨bd, l, s.asm.nextLabelId, rfl, hsi, rfl, rfl, rfl, rfl, by
                simp [AsmState.append, List.append_assoc]⟩
          | none =>
              rw [hlab, hsi] at heq
              rw [heq] at h
              exact absurd h (by simp)

theorem blockSetup_noLayout {b : Nat} {s : TransformState} {bd : BlockData}
    (hg : s.blockData.get? b = some bd) (hsi : bd.stackIn = none) :
    blockSetup b s = .error ("No starting layout for block b" ++ toString b) := by
  have heq := blockSetup_run_eq hg
  cases hlab : bd.label <;> rw [hlab, hsi] at heq <;> exact heq

theorem blockSetup_ok {b : Nat} {s : TransformState} {bd : BlockData} {l : List StackSlot}
    (hg : s.blockData.get? b = some bd) (hsi : bd.stackIn = some l) :
    ∃ s1, blockSetup b s = .ok ((), s1) := by
  have heq := blockSetup_run_eq hg
  cases hlab : bd.label <;> rw [hlab, hsi] at heq <;> exact ⟨_, heq⟩

theorem blockBody_char {cfg : SSACFG} {lv : SSACFGLiveness} {b : Nat}
    {s s' : TransformState} (h : blockBody cfg lv b s = .ok ((), s')) :
    ∃ s1 blk, blockSetup b s = .ok ((), s1) ∧ cfg.blocks.get? b = some blk ∧
      blk.operations.length = (lv.operationsLiveOut b).length ∧
      processOps cfg (blk.operations.zip (lv.operationsLiveOut b)) s1 = .ok ((), s') := by
  simp only [blockBody, bind_run] at h
  cases hs1 : blockSetup b s with
  | error e => rw [hs1] at h; exact absurd h (by simp)
  | ok p =>
      obtain ⟨u, s1⟩ := p
      cases u
      rw [hs1] at h
      dsimp only at h
      rw [cfgBlock_run] at h
      cases hblk : cfg.blocks.get? b with
      | none => rw [hblk] at h; exact absurd h (by simp)
      | some blk =>
          rw [hblk] at h
          dsimp only at h
          rw [yulAssert_run] at h
          by_cases hcnt : blk.operations.length = (lv.operationsLiveOut b).length
          · rw [if_pos hcnt] at h
            dsimp only at h
            exact ⟨s1, blk, rfl, rfl, hcnt, h⟩
          · rw [if_neg hcnt] at h
            exact absurd h (by simp)

theorem blockBody_countMismatch {cfg : SSACFG} {lv : SSACFGLiveness} {b : Nat}
    {s : TransformState} {bd : BlockData} {l : List StackSlot} {blk : BasicBlock}
    (hg : s.blockData.get? b = some bd) (hsi : bd.stackIn = some l)
    (hblk : cfg.blocks.get? b = some blk)
    (hcnt : blk.operations.length ≠ (lv.operationsLiveOut b).length) :
    blockBody cfg lv b s = .error "operation count differs from liveness record count" := by
  obtain ⟨s1, hs1⟩ := blockSetup_ok hg hsi
  simp only [blockBody, bind_run, hs1]
  rw [cfgBlock_run, hblk]
  dsimp only
  rw [yulAssert_run, if_neg hcnt]

theorem blockVisit_char {cfg : SSACFG} {lv : SSACFGLiveness} {b : Nat}
    {s s' : TransformState} (h : blockVisit cfg lv b s = .ok ((), s')) :
    ∃ s2, blockBody cfg lv b { s with currentBlock := b, stack := [] } = .ok ((), s2) ∧
      s' = { s2 with stack := s.stack } := by
  simp only [blockVisit] at h
  cases hb : blockBody cfg lv b { s with currentBlock := b, stack := [] } with
  | error e => rw [hb] at h; exact absurd h (by simp)
  | ok p =>
      obtain ⟨u, s2⟩ := p
      cases u
      rw [hb] at h
      simp only [Except.ok.injEq, Prod.mk.injEq, true_and] at h
      exact ⟨s2, rfl, h.symm⟩

theorem blockVisit_error {cfg : SSACFG} {lv : SSACFGLiveness} {b : Nat}
    {s : TransformState} {e : String}
    (h : blockBody cfg lv b { s with currentBlock := b, stack := [] } = .error e) :
    blockVisit cfg lv b s = .error e := by
  simp only [blockVisit, h]

theorem runLoop_spec {policy : UseNamedLabels} {oracle : SSACFG → SSACFGLiveness} :
    ∀ {fns : List (FunctionInfo × SSACFG)} {acc : List StackTooDeepError} {asm : AsmState}
      {r : List StackTooDeepError} {a : AsmState},
    runLoop policy oracle fns acc asm = .ok (r, a) →
    ∃ ess, runUnitsSpec policy oracle fns asm = .ok (ess, a) ∧ r = acc ++ ess.join := by
  intro fns
  induction fns with
  | nil =>
      intro acc asm r a h
      simp only [runLoop, Except.ok.injEq, Prod.mk.injEq] at h
      obtain ⟨hr, ha⟩ := h
      subst hr
      subst ha
      exact ⟨[], by simp [runUnitsSpec], by simp⟩
  | cons u rest ih =>
      intro acc asm r a h
      obtain ⟨fn, g⟩ := u
      simp only [runLoop] at h
      cases hu : runFunctionUnit policy fn g oracle asm with
      | error e => rw [hu] at h; exact absurd h (by simp)
      | ok p =>
          obtain ⟨errs, asm1⟩ := p
          rw [hu] at h
          dsimp only at h
          obtain ⟨ess, hspec, hr⟩ := ih h
          refine ⟨errs :: ess, ?_, ?_⟩
          · simp only [runUnitsSpec, hu, hspec]
          · rw [hr]
            by_cases he : errs.isEmpty = true
            · rw [if_pos he]
              rw [List.isEmpty_iff.mp he]
              simp
            · rw [if_neg he]
              simp [List.append_assoc]

theorem forceEntryEmpty_stackIn {st st' : TransformState} (h : forceEntryEmpty st = .ok st') :
    (st'.blockData.get? 0).bind (fun bd => bd.stackIn) = some [] := by
  unfold forceEntryEmpty at h
  cases hg : st.blockData.get? 0 with
  | none => rw [hg] at h; exact absurd h (by simp)
  | some bd =>
      rw [hg] at h
      simp only [Except.ok.injEq] at h
      subst h
      have hlt : 0 < st.blockData.length := (List.get?_eq_some.mp hg).1
      have hset : (st.blockData.set 0 { bd with stackIn := some [] })[0]? =
          some { bd with stackIn := some [] } := by
        rw [← List.get?_eq_getElem?]
        exact List.get?_set_eq_of_lt _ hlt
      simp [hset]

/-- C1: every swap or duplicate-at-depth instruction the scheduler emits
carries a depth within the machine's addressable bound (1..16): the `swap`
helper only succeeds for such depths, and a successful `processOperation`
appends only depth-respecting events; a program point whose rearrangement
needs a larger depth yields exactly one recorded Depth-Limit Violation
(`anyTooDeep` is the pure criterion) and no out-of-bound instruction. -/
theorem claim1_swap_dup_depth_bounded :
    (∀ (d : Nat) (s : TransformState) (r : Unit × TransformState),
        swap d s = .ok r → 1 ≤ d ∧ d ≤ 16) ∧
    (∀ (cfg : SSACFG) (op : Operation) (lo : List Nat) (s s' : TransformState),
        processOperation cfg op lo s = .ok ((), s') →
        (∀ e ∈ s'.asm.events.drop s.asm.events.length, depthOK e = true) ∧
        s'.stackErrors =
          (if anyTooDeep cfg (op.inputs.map StackSlot.value)
              (s.stack.dropWhile (deadTop op lo)) = true
           then s.stackErrors ++ [⟨cfg.function.map (fun f => f.name), s.currentBlock⟩]
           else s.stackErrors)) := by
  constructor
  · intro d s r h
    by_cases hb : 1 ≤ d ∧ d ≤ 16
    · exact hb
    · exfalso
      have herr : swapInstruction d = .error "invalid swap instruction" := by
        simp [swapInstruction, hb]
      unfold swap at h
      rw [herr] at h
      simp at h
  · intro cfg op lo s s' h
    obtain ⟨s1, ha, hst1, hev, hstF, herrF, hok⟩ := processOperation_char h
    obtain ⟨_, _, _, _, _, d, hd, hall⟩ := hok
    constructor
    · rw [hd, List.drop_left]
      intro e he
      exact (hall e he).2
    · obtain ⟨_, herr1, _⟩ := arrangeStack_char ha
      exact herrF.trans herr1

/-- C1 witness: `swap 1` succeeds on `exState` (depth within bound), and the
operation needing `v1` buried 17 deep records exactly one violation while
emitting only depth-respecting events. -/
theorem claim1_witness :
    (swap 1 exState = .ok ((), exSwapOut) ∧ (1 ≤ 1 ∧ 1 ≤ 16)) ∧
    (processOperation exCfg exOp deepLive deepState = .ok ((), deepOut) ∧
      ((∀ e ∈ deepOut.asm.events.drop deepState.asm.events.length, depthOK e = true) ∧
        deepOut.stackErrors =
          (if anyTooDeep exCfg (exOp.inputs.map StackSlot.value)
              (deepState.stack.dropWhile (deadTop exOp deepLive)) = true
           then deepState.stackErrors ++
             [⟨exCfg.function.map (fun f => f.name), deepState.currentBlock⟩]
           else deepState.stackErrors))) :=
  ⟨⟨rfl, claim1_swap_dup_depth_bounded.1 1 exState ((), exSwapOut) rfl⟩,
   ⟨rfl, claim1_swap_dup_depth_bounded.2 exCfg exOp deepLive deepState deepOut rfl⟩⟩

/-- C2: when an operation is processed, at the moment its effect is emitted
(the state `s1` reached by `arrangeStack`, from which the very next event is
the operation's effect) the declared inputs occupy the top stack positions in
declared order, and immediately after, the declared outputs sit on the stack
in declared order above the preserved remainder. -/
theorem claim2_operands_arranged (cfg : SSACFG) (op : Operation) (lo : List Nat)
    (s s' : TransformState) (h : processOperation cfg op lo s = .ok ((), s')) :
    ∃ s1, arrangeStack cfg op lo s = .ok ((), s1) ∧
      s1.stack = (op.inputs.map StackSlot.value) ++ s.stack.dropWhile (deadTop op lo) ∧
      s'.asm.events = s1.asm.events ++
        [.instr (.opEffect op.kind op.inputs.length op.outputs.length)] ∧
      s'.stack = (op.outputs.map StackSlot.value).reverse ++ s.stack.dropWhile (deadTop op lo) := by
  obtain ⟨s1, ha, hst1, hev, hstF, _, _⟩ := processOperation_char h
  exact ⟨s1, ha, hst1, hev, hstF⟩

/-- C2 witness: processing `exOp` (input `v1`, output `v7`) on `exState`. -/
theorem claim2_witness :
    processOperation exCfg exOp [1] exState = .ok ((), exOut) ∧
    (∃ s1, arrangeStack exCfg exOp [1] exState = .ok ((), s1) ∧
      s1.stack = (exOp.inputs.map StackSlot.value) ++
        exState.stack.dropWhile (deadTop exOp [1]) ∧
      exOut.asm.events = s1.asm.events ++
        [.instr (.opEffect exOp.kind exOp.inputs.length exOp.outputs.length)] ∧
      exOut.stack = (exOp.outputs.map StackSlot.value).reverse ++
        exState.stack.dropWhile (deadTop exOp [1])) :=
  ⟨rfl, claim2_operands_arranged exCfg exOp [1] exState exOut rfl⟩

/-- C9: a discard is only ever applied to the top slot — `pop` succeeds only
on a non-empty stack, removes exactly the top slot and emits exactly one POP;
on an empty stack it faults; and the processing of an operation never removes
from the stack a value recorded live in the operation's live-out set. -/
theorem claim9_pop_discipline :
    (∀ s s' : TransformState, pop s = .ok ((), s') →
        s.stack ≠ [] ∧ s'.stack = s.stack.tail ∧
        s'.asm.events = s.asm.events ++ [.instr .pop]) ∧
    (∀ s : TransformState, s.stack = [] → pop s = .error "pop: empty stack") ∧
    (∀ (cfg : SSACFG) (op : Operation) (lo : List Nat) (s s' : TransformState),
        processOperation cfg op lo s = .ok ((), s') →
        ∀ v, v ∈ lo → StackSlot.value v ∈ s.stack → StackSlot.value v ∈ s'.stack) := by
  refine ⟨?_, ?_, ?_⟩
  · intro s s' h
    obtain ⟨hne, htail, _, hev, _⟩ := pop_char h
    exact ⟨hne, htail, hev⟩
  · intro s hs
    simp [pop, hs]
  · intro cfg op lo s s' h v hv hmem
    obtain ⟨s1, ha, _, _, hstF, _, _⟩ := processOperation_char h
    rw [hstF]
    apply List.mem_append_right
    have hc : lo.contains v = true := List.elem_iff.mpr hv
    have hdead : deadTop op lo (StackSlot.value v) = false := by
      simp [deadTop, hc]
      intro hcon
      exact absurd hv hcon
    exact mem_dropWhile_of_mem hdead hmem

/-- C9 witness: `pop` on `exState` removes exactly the top slot; `pop` on an
empty stack faults; processing `exOp` with `v1` live keeps `v1` on the
stack. -/
theorem claim9_witness :
    (pop exState = .ok ((), popOut) ∧
      (exState.stack ≠ [] ∧ popOut.stack = exState.stack.tail ∧
        popOut.asm.events = exState.asm.events ++ [.instr .pop])) ∧
    (emptyStackState.stack = [] ∧ pop emptyStackState = .error "pop: empty stack") ∧
    (processOperation exCfg exOp [1] exState = .ok ((), exOut) ∧
      ((1 : Nat) ∈ [1] ∧ StackSlot.value 1 ∈ exState.stack ∧
        StackSlot.value 1 ∈ exOut.stack)) :=
  ⟨⟨rfl, claim9_pop_discipline.1 exState popOut rfl⟩,
   ⟨rfl, claim9_pop_discipline.2.1 emptyStackState rfl⟩,
   ⟨rfl, by decide, by decide,
     claim9_pop_discipline.2.2 exCfg exOp [1] exState exOut rfl 1 (by decide) (by decide)⟩⟩

/-- C10: the per-block traversal restores the working stack to exactly its
pre-call contents on return (the `ScopedSaveAndRestore` frame effect), so no
working-stack state leaks between sibling block visits. -/
theorem claim10_stack_restored (cfg : SSACFG) (lv : SSACFGLiveness) (b : Nat)
    (s s' : TransformState) (h : blockVisit cfg lv b s = .ok ((), s')) :
    s'.stack = s.stack := by
  obtain ⟨s2, _, hs'⟩ := blockVisit_char h
  rw [hs']

/-- C10 witness: visiting `exCfg`'s block 0 from `exState` returns with the
working stack unchanged. -/
theorem claim10_witness :
    blockVisit exCfg exLv 0 exState = .ok ((), exVisitOut) ∧
    exVisitOut.stack = exState.stack :=
  ⟨rfl, claim10_stack_restored exCfg exLv 0 exState exVisitOut rfl⟩

/-- C3: during a block visit, the heights reported to the sink are exactly
one report, equal to the number of stack slots in the scheduler's working
stack model at the reporting point (the state `s1` just after the entry
layout `l` is loaded, whose working stack is exactly `l`). -/
theorem claim3_reported_height (cfg : SSACFG) (lv : SSACFGLiveness) (b : Nat)
    (s s' : TransformState) (h : blockVisit cfg lv b s = .ok ((), s')) :
    ∃ bd l s1, s.blockData.get? b = some bd ∧ bd.stackIn = some l ∧
      blockSetup b { s with currentBlock := b, stack := [] } = .ok ((), s1) ∧
      s1.stack = l ∧
      heightsOf (s'.asm.events.drop s.asm.events.length) = [s1.stack.length] := by
  obtain ⟨s2, hbody, hs'⟩ := blockVisit_char h
  obtain ⟨s1, blk, hsetup, hblk, hcnt, hops⟩ := blockBody_char hbody
  obtain ⟨bd, l, lab, hg, hsi, hstack1, _, _, _, hev1⟩ := blockSetup_char hsetup
  obtain ⟨_, _, _, _, _, d, hd, hall⟩ := processOps_char hops
  refine ⟨bd, l, s1, hg, hsi, hsetup, hstack1, ?_⟩
  have hsev : s'.asm.events =
      s.asm.events ++ ([.labelDef lab, .setStackHeight l.length] ++ d) := by
    rw [hs']
    dsimp only
    rw [hd, hev1]
    dsimp only
    rw [List.append_assoc]
  rw [hsev, List.drop_left, heightsOf_append,
    heightsOf_of_instrs (fun e he => (hall e he).1), hstack1]
  simp [heightsOf]

/-- C3 witness: visiting `exCfg`'s block 0 from `exState` reports exactly the
height 2 of the loaded entry layout. -/
theorem claim3_witness :
    blockVisit exCfg exLv 0 exState = .ok ((), exVisitOut) ∧
    (∃ bd l s1, exState.blockData.get? 0 = some bd ∧ bd.stackIn = some l ∧
      blockSetup 0 { exState with currentBlock := 0, stack := [] } = .ok ((), s1) ∧
      s1.stack = l ∧
      heightsOf (exVisitOut.asm.events.drop exState.asm.events.length) = [s1.stack.length]) :=
  ⟨rfl, claim3_reported_height exCfg exLv 0 exState exVisitOut rfl⟩

/-- C7: visiting a block whose required-entry stack layout has not been
established raises the fatal internal-consistency fault (an error, not a
recovery) with the corresponding message. -/
theorem claim7_missing_layout_faults (cfg : SSACFG) (lv : SSACFGLiveness) (b : Nat)
    (s : TransformState) (bd : BlockData)
    (hg : s.blockData.get? b = some bd) (hsi : bd.stackIn = none) :
    blockVisit cfg lv b s = .error ("No starting layout for block b" ++ toString b) := by
  apply blockVisit_error
  have hgw : ({ s with currentBlock := b, stack := [] } :
      TransformState).blockData.get? b = some bd := hg
  have hserr := blockSetup_noLayout hgw hsi
  simp only [blockBody, bind_run, hserr]

/-- C7 witness: visiting block 0 of a state whose metadata holds no entry
layout faults with the expected message. -/
theorem claim7_witness :
    noLayoutState.blockData.get? 0 = some ⟨none, none⟩ ∧
    (⟨none, none⟩ : BlockData).stackIn = none ∧
    blockVisit exCfg exLv 0 noLayoutState =
      .error ("No starting layout for block b" ++ toString 0) :=
  ⟨rfl, rfl, claim7_missing_layout_faults exCfg exLv 0 noLayoutState ⟨none, none⟩ rfl rfl⟩

/-- C8: a successful block visit implies the block's operation count equals
the liveness oracle's record count for that block, and the operations were
processed in order zipped one-to-one with their live-out sets; when the
counts differ (and the visit reaches the check), the scheduler raises the
fatal internal-consistency fault. -/
theorem claim8_count_invariant :
    (∀ (cfg : SSACFG) (lv : SSACFGLiveness) (b : Nat) (s s' : TransformState)
        (blk : BasicBlock),
        blockVisit cfg lv b s = .ok ((), s') → cfg.blocks.get? b = some blk →
        blk.operations.length = (lv.operationsLiveOut b).length ∧
        ∃ s1 s2, blockSetup b { s with currentBlock := b, stack := [] } = .ok ((), s1) ∧
          processOps cfg (blk.operations.zip (lv.operationsLiveOut b)) s1 = .ok ((), s2)) ∧
    (∀ (cfg : SSACFG) (lv : SSACFGLiveness) (b : Nat) (s : TransformState)
        (bd : BlockData) (l : List StackSlot) (blk : BasicBlock),
        s.blockData.get? b = some bd → bd.stackIn = some l →
        cfg.blocks.get? b = some blk →
        blk.operations.length ≠ (lv.operationsLiveOut b).length →
        blockVisit cfg lv b s = .error "operation count differs from liveness record count") := by
  constructor
  · intro cfg lv b s s' blk h hblk
    obtain ⟨s2, hbody, hs'⟩ := blockVisit_char h
    obtain ⟨s1, blk', hsetup, hblk', hcnt, hops⟩ := blockBody_char hbody
    rw [hblk] at hblk'
    obtain rfl := Option.some.inj hblk'
    exact ⟨hcnt, s1, s2, hsetup, hops⟩
  · intro cfg lv b s bd l blk hg hsi hblk hcnt
    apply blockVisit_error
    have hgw : ({ s with currentBlock := b, stack := [] } :
        TransformState).blockData.get? b = some bd := hg
    exact blockBody_countMismatch hgw hsi hblk hcnt

/-- C8 witness: the successful visit of `exCfg` has matching counts (1 = 1),
while the all-empty oracle `lvEmpty` (0 records) makes the same visit fault. -/
theorem claim8_witness :
    (blockVisit exCfg exLv 0 exState = .ok ((), exVisitOut) ∧
      exCfg.blocks.get? 0 = some ⟨[exOp]⟩ ∧
      ((⟨[exOp]⟩ : BasicBlock).operations.length = (exLv.operationsLiveOut 0).length ∧
        ∃ s1 s2,
          blockSetup 0 { exState with currentBlock := 0, stack := [] } = .ok ((), s1) ∧
          processOps exCfg ((⟨[exOp]⟩ : BasicBlock).operations.zip
            (exLv.operationsLiveOut 0)) s1 = .ok ((), s2))) ∧
    (exState.blockData.get? 0 = some ⟨none, some [.value 1, .value 2]⟩ ∧
      (⟨[exOp]⟩ : BasicBlock).operations.length ≠ (lvEmpty.operationsLiveOut 0).length ∧
      blockVisit exCfg lvEmpty 0 exState =
        .error "operation count differs from liveness record count") :=
  ⟨⟨rfl, rfl, claim8_count_invariant.1 exCfg exLv 0 exState exVisitOut ⟨[exOp]⟩ rfl rfl⟩,
   ⟨rfl, by decide,
    claim8_count_invariant.2 exCfg lvEmpty 0 exState ⟨none, some [.value 1, .value 2]⟩
      [.value 1, .value 2] ⟨[exOp]⟩ rfl rfl rfl (by decide)⟩⟩

/-- C4: forcing the entry layout always leaves block 0 of the entry unit with
the empty required-entry stack, regardless of whatever metadata was there
before; and every successful `runMainUnit` factors through the freshly
constructed scheduler, the forcing step (after which block 0's required entry
layout is `some []`), and the visit of block 0 started from that state. -/
theorem claim4_entry_forced_empty :
    (∀ st st' : TransformState, forceEntryEmpty st = .ok st' →
      (st'.blockData.get? 0).bind (fun bd => bd.stackIn) = some []) ∧
    (∀ (policy : UseNamedLabels) (cf : ControlFlow) (oracle : SSACFG → SSACFGLiveness)
        (asm : AsmState) (r : List StackTooDeepError × AsmState),
      runMainUnit policy cf oracle asm = .ok r →
      ∃ st st1 st2, mkTransform policy cf.mainGraph asm = .ok st ∧
        forceEntryEmpty st = .ok st1 ∧
        (st1.blockData.get? 0).bind (fun bd => bd.stackIn) = some [] ∧
        blockVisit cf.mainGraph (oracle cf.mainGraph) 0 st1 = .ok ((), st2) ∧
        r = (st2.stackErrors, st2.asm)) := by
  constructor
  · intro st st' h
    exact forceEntryEmpty_stackIn h
  · intro policy cf oracle asm r h
    simp only [runMainUnit] at h
    cases hmk : mkTransform policy cf.mainGraph asm with
    | error e => rw [hmk] at h; exact absurd h (by simp)
    | ok st =>
        rw [hmk] at h
        dsimp only at h
        cases hfe : forceEntryEmpty st with
        | error e => rw [hfe] at h; exact absurd h (by simp)
        | ok st1 =>
            rw [hfe] at h
            dsimp only at h
            cases hbv : blockVisit cf.mainGraph (oracle cf.mainGraph) 0 st1 with
            | error e => rw [hbv] at h; exact absurd h (by simp)
            | ok p =>
                obtain ⟨u, st2⟩ := p
                cases u
                rw [hbv] at h
                dsimp only at h
                simp only [Except.ok.injEq] at h
                exact ⟨st, st1, st2, rfl, hfe, forceEntryEmpty_stackIn hfe, hbv, h.symm⟩

/-- C4 witness: forcing on a state whose block 0 had no layout yields the
empty layout; and the example entry unit's run factors as stated. -/
theorem claim4_witness :
    (forceEntryEmpty noLayoutState = .ok noLayoutForced ∧
      (noLayoutForced.blockData.get? 0).bind (fun bd => bd.stackIn) = some []) ∧
    (runMainUnit UseNamedLabels.Never exCf exOracle exAsm = .ok ([], runMainOutAsm) ∧
      ∃ st st1 st2, mkTransform UseNamedLabels.Never exCf.mainGraph exAsm = .ok st ∧
        forceEntryEmpty st = .ok st1 ∧
        (st1.blockData.get? 0).bind (fun bd => bd.stackIn) = some [] ∧
        blockVisit exCf.mainGraph (exOracle exCf.mainGraph) 0 st1 = .ok ((), st2) ∧
        ([], runMainOutAsm) = (st2.stackErrors, st2.asm)) :=
  ⟨⟨rfl, claim4_entry_forced_empty.1 noLayoutState noLayoutForced rfl⟩,
   ⟨rfl, claim4_entry_forced_empty.2 UseNamedLabels.Never exCf exOracle exAsm
      ([], runMainOutAsm) rfl⟩⟩

/-- C5: a successful top-level `run` returns exactly the entry unit's
violations followed by each function unit's violations in processing order
(the concatenation of all per-unit violation lists); units after a unit with
violations are still run — the result factors through `runUnitsSpec`, which
runs every remaining unit regardless of earlier violations. -/
theorem claim5_run_aggregates (policy : UseNamedLabels) (cf : ControlFlow)
    (oracle : SSACFG → SSACFGLiveness) (asm : AsmState)
    (errs : List StackTooDeepError) (asm' : AsmState)
    (h : run policy cf oracle asm = .ok (errs, asm')) :
    ∃ mainErrs asm1 ess, runMainUnit policy cf oracle asm = .ok (mainErrs, asm1) ∧
      runUnitsSpec policy oracle cf.functionGraphMapping asm1 = .ok (ess, asm') ∧
      errs = mainErrs ++ ess.join := by
  simp only [run] at h
  cases hm : runMainUnit policy cf oracle asm with
  | error e => rw [hm] at h; exact absurd h (by simp)
  | ok p =>
      obtain ⟨mainErrs, asm1⟩ := p
      rw [hm] at h
      dsimp only at h
      obtain ⟨ess, hspec, hr⟩ := runLoop_spec h
      refine ⟨mainErrs, asm1, ess, rfl, hspec, ?_⟩
      rw [hr]
      by_cases he : mainErrs.isEmpty = true
      · rw [if_pos he, List.isEmpty_iff.mp he]
      · rw [if_neg he]

/-- C5 witness: running the example program (entry unit plus one function
unit) returns the concatenation of the per-unit violation lists (here all
empty). -/
theorem claim5_witness :
    run UseNamedLabels.Never exCfMain exOracle exAsm = .ok ([], runMainOutAsm) ∧
    (∃ mainErrs asm1 ess,
      runMainUnit UseNamedLabels.Never exCfMain exOracle exAsm = .ok (mainErrs, asm1) ∧
      runUnitsSpec UseNamedLabels.Never exOracle exCfMain.functionGraphMapping asm1 =
        .ok (ess, runMainOutAsm) ∧
      ([] : List StackTooDeepError) = mainErrs ++ ess.join) :=
  ⟨rfl, claim5_run_aggregates UseNamedLabels.Never exCfMain exOracle exAsm []
    runMainOutAsm rfl⟩

/-- C6: contrary to the specification's scenario, registering two functions
with the same source name "f" under the forced-unique naming policy does NOT
raise the internal-consistency fault — each constructor checks the name
against a freshly created local set holding at most its own unit's single
function name, so the duplicate check is vacuous: both registrations succeed
(the second even allocates a second named label "f"). -/
theorem claim6_duplicate_name_no_fault :
    mkFunctionLabels UseNamedLabels.YesAndForceUnique cfgF1 exAsm =
      .ok ([(0, 0)], ⟨1, [(0, "f")], []⟩) ∧
    mkFunctionLabels UseNamedLabels.YesAndForceUnique cfgF2 ⟨1, [(0, "f")], []⟩ =
      .ok ([(1, 1)], ⟨2, [(0, "f"), (1, "f")], []⟩) := ⟨rfl, rfl⟩

end SSAEVM
